import Mathlib

/-!
Verification of the 5y-planning backend's core algorithms against their
natural-language specification.  The Python services are shallowly embedded:
yearly series become lists of `(year, volume, revenue)` triples over `ℤ × ℚ × ℚ`,
dictionaries become association lists or functions, numeric values are exact
rationals, and the only non-rational ingredient (the fractional power
`x ** (1 / periods)` used by the CAGR formula) is abstracted as an explicit
root-function parameter `rt`, so that every definition stays computable.

Layout: all definitions (one namespace per Python service module) come first,
followed by the helper lemmas and the claim theorems.
-/

namespace AnalyticsService

/-- `historical_years = [year for year, _, _ in yearly if year <= 2026]`
from `compute_baseline` in `analytics_service.py`. -/
def historicalYears (yearly : List (ℤ × ℚ × ℚ)) : List ℤ :=
  (yearly.filter (fun e => e.1 ≤ 2026)).map (fun e => e.1)

/-- `next(f(entry) for entry in yearly if year == y)` — the first entry of the
series carrying year `y`, projected by `f` (the generator expressions that pick
`start_volume`, `end_volume`, `start_revenue`, `end_revenue`). -/
def firstWhereYear (yearly : List (ℤ × ℚ × ℚ)) (y : ℤ) (f : ℤ × ℚ × ℚ → ℚ) : ℚ :=
  ((yearly.find? (fun e => e.1 = y)).map f).getD 0

/-- `start_year = historical_years[0]`. -/
def startYear (yearly : List (ℤ × ℚ × ℚ)) : ℤ :=
  (historicalYears yearly).headD 0

/-- `end_year = historical_years[-1]`. -/
def endYear (yearly : List (ℤ × ℚ × ℚ)) : ℤ :=
  (historicalYears yearly).getLastD 0

/-- `periods = end_year - start_year or 1`. -/
def periods (yearly : List (ℤ × ℚ × ℚ)) : ℤ :=
  if endYear yearly - startYear yearly = 0 then 1 else endYear yearly - startYear yearly

/-- `safe_cagr`: `0.0` when either endpoint is `<= 0`, otherwise
`(end / start) ** (1 / periods) - 1`.  The real-valued fractional power is
abstracted as the root function `rt`, where `rt x p` models `x ** (1 / p)`. -/
def safeCagr (rt : ℚ → ℤ → ℚ) (p : ℤ) (s e : ℚ) : ℚ :=
  if s ≤ 0 ∨ e ≤ 0 then 0 else rt (e / s) p - 1

def startVolume (yearly : List (ℤ × ℚ × ℚ)) : ℚ :=
  firstWhereYear yearly (startYear yearly) (fun e => e.2.1)

def endVolume (yearly : List (ℤ × ℚ × ℚ)) : ℚ :=
  firstWhereYear yearly (endYear yearly) (fun e => e.2.1)

def startRevenue (yearly : List (ℤ × ℚ × ℚ)) : ℚ :=
  firstWhereYear yearly (startYear yearly) (fun e => e.2.2)

def endRevenue (yearly : List (ℤ × ℚ × ℚ)) : ℚ :=
  firstWhereYear yearly (endYear yearly) (fun e => e.2.2)

def volumeCagr (rt : ℚ → ℤ → ℚ) (yearly : List (ℤ × ℚ × ℚ)) : ℚ :=
  safeCagr rt (periods yearly) (startVolume yearly) (endVolume yearly)

def revenueCagr (rt : ℚ → ℤ → ℚ) (yearly : List (ℤ × ℚ × ℚ)) : ℚ :=
  safeCagr rt (periods yearly) (startRevenue yearly) (endRevenue yearly)

/-- The projection loop of `compute_baseline`: for each requested year the
running volume and revenue are multiplied by `(1 + cagr)` and floored at `0`,
and the floored values carry over to the next year. -/
def projectYears (vc rc : ℚ) : List ℤ → ℚ → ℚ → List (ℤ × ℚ × ℚ)
  | [], _, _ => []
  | y :: ys, v, r =>
    let v2 := max 0 (v * (1 + vc))
    let r2 := max 0 (r * (1 + rc))
    (y, v2, r2) :: projectYears vc rc ys v2 r2

/-- `compute_baseline` from `analytics_service.py`: empty result when the
series is empty or has fewer than two historical (`<= 2026`) entries, else the
four compounded years 2027–2030. -/
def compute_baseline (rt : ℚ → ℤ → ℚ) (yearly : List (ℤ × ℚ × ℚ)) :
    List (ℤ × ℚ × ℚ) :=
  if yearly = [] then []
  else if (historicalYears yearly).length < 2 then []
  else
    projectYears (volumeCagr rt yearly) (revenueCagr rt yearly)
      [2027, 2028, 2029, 2030] (endVolume yearly) (endRevenue yearly)

/-- The keys of `ALLOWED_FIELDS` in `analytics_service.py`. -/
def ALLOWED_FIELDS : List String :=
  ["ano", "diretor", "sigla_uf", "tipo_produto", "familia", "familia_producao",
   "marca", "situacao_lista", "cod_produto", "produto"]

/-- One element of the `aggregates` list built by `generate_aggregate`. -/
structure AggEntry where
  year : ℤ
  volume : ℚ
  revenue : ℚ
deriving DecidableEq

/-- One element of the `result` list built by `generate_aggregate`. -/
structure AggGroup where
  key : List (String × String)
  values : List AggEntry
deriving DecidableEq

/-- The dictionary returned by `generate_aggregate`. -/
structure AggResult where
  group_by : List String
  metric : String
  rows : List AggGroup
deriving DecidableEq

/-- `grouped[tuple(keys)].append((year, value))` on a Python dict: association
list keyed by the grouping tuple, preserving dict insertion order. -/
def insertGrouped (acc : List (List String × List (ℤ × ℚ))) (k : List String)
    (v : ℤ × ℚ) : List (List String × List (ℤ × ℚ)) :=
  match acc with
  | [] => [(k, [v])]
  | (k', vs) :: rest =>
    if k' = k then (k, vs ++ [v]) :: rest else (k', vs) :: insertGrouped rest k v

/-- The `defaultdict(list)` grouping loop of `generate_aggregate`, over the
rows `(keys, year, summed value)` returned by the grouped SQL query. -/
def groupRows (rows : List (List String × ℤ × ℚ)) :
    List (List String × List (ℤ × ℚ)) :=
  rows.foldl (fun acc r => insertGrouped acc r.1 (r.2.1, r.2.2)) []

/-- `generate_aggregate` from `analytics_service.py`.  Input `rows` models the
result set of the grouped SQL query (tuple of grouping-column values, year,
summed metric), in the unspecified order the database returns it. -/
def generate_aggregate (rows : List (List String × ℤ × ℚ)) (group_by : List String)
    (metric : String) : Except String AggResult :=
  if group_by = [] then .error "Informe ao menos um campo de agrupamento."
  else
    let invalid := group_by.filter (fun f => ¬ f ∈ ALLOWED_FIELDS)
    if invalid ≠ [] then
      .error ("Campos inválidos para agrupamento: " ++ String.intercalate ", " invalid)
    else
      Except.ok
        { group_by := group_by
          metric := metric
          rows := (groupRows rows).map (fun g =>
            { key := group_by.zip g.1
              values := (List.insertionSort (fun a b => a.1 ≤ b.1) g.2).map
                (fun v =>
                  { year := v.1
                    volume := if metric = "volume" then v.2 else 0
                    revenue := if metric = "revenue" then v.2 else 0 }) }) }

end AnalyticsService

namespace PreprocessService

/-- `ScenarioDefinition` from `preprocess_service.py`. -/
structure ScenarioDefinition where
  id : String
  label : String
  description : String
  volume_multiplier : ℚ := 1
  revenue_multiplier : ℚ := 1
deriving DecidableEq

/-- `SCENARIO_DEFINITIONS`: the three fixed scenarios, with the float
multipliers `1.05`, `1.04` and `0.97` written as exact rationals. -/
def SCENARIO_DEFINITIONS : List ScenarioDefinition :=
  [{ id := "base", label := "Base 2030"
     description := "Projeção automática (CAGR) usando o histórico filtrado." },
   { id := "optimistic", label := "Otimista"
     description := "Incremento de +5% em volume e +4% em receita para os anos projetados."
     volume_multiplier := 21/20, revenue_multiplier := 26/25 },
   { id := "pessimistic", label := "Pessimista"
     description := "Redução de -3% em volume e receita nos anos projetados."
     volume_multiplier := 97/100, revenue_multiplier := 97/100 }]

/-- The scenario part of `generate_preprocess_payload`: `yearly` models
`_collect_yearly_totals` output; the record counter is elided (not used by the
scenario series).  `baseline or existing_future` is Python truthiness on
lists. -/
def generate_preprocess_payload (rt : ℚ → ℤ → ℚ) (yearly : List (ℤ × ℚ × ℚ)) :
    List (ScenarioDefinition × List (ℤ × ℚ × ℚ)) :=
  let historical := yearly.filter (fun e => e.1 ≤ 2026)
  let existing_future := yearly.filter (fun e => 2026 < e.1)
  let baseline := AnalyticsService.compute_baseline rt yearly
  SCENARIO_DEFINITIONS.map (fun scenario =>
    let projections_source := if baseline = [] then existing_future else baseline
    (scenario,
      historical ++ projections_source.map (fun e =>
        (e.1, e.2.1 * scenario.volume_multiplier, e.2.2 * scenario.revenue_multiplier))))

end PreprocessService

namespace ForecastEngine

/-- `REQUIRED_COLUMNS` from `schemas/core.py`. -/
def REQUIRED_COLUMNS : List String :=
  ["Ano", "Diretor", "Sigla UF", "Tipo Produto", "Família", "Família Produção",
   "Marca", "SITUAÇÃO LISTA", "Cod Produto", "Produto", "Fat Liq (Kg)", "Fat Liq (R$)"]

/-- `Hierarchy.levels` from `forecast_engine.py`. -/
def hierarchyLevels : List String :=
  ["Diretor", "Sigla UF", "Tipo Produto", "Família", "Família Produção", "Marca",
   "Cod Produto"]

/-- The `Literal` type of `ManualGrowthFactor.level` in `schemas/core.py`:
one of the first six hierarchy levels. -/
inductive HLevel
  | diretor
  | siglaUF
  | tipoProduto
  | familia
  | familiaProducao
  | marca
deriving DecidableEq

def HLevel.name : HLevel → String
  | .diretor => "Diretor"
  | .siglaUF => "Sigla UF"
  | .tipoProduto => "Tipo Produto"
  | .familia => "Família"
  | .familiaProducao => "Família Produção"
  | .marca => "Marca"

/-- `self.hierarchy.levels.index(factor.level)`. -/
def HLevel.index (l : HLevel) : ℤ :=
  (hierarchyLevels.indexOf l.name : ℕ)

/-- `ManualGrowthFactor` from `schemas/core.py`. -/
structure ManualGrowthFactor where
  level : HLevel
  value : String
  percentage : ℚ

/-- `_resolve_manual_growth`: scan the factors left to right keeping
`best_match = (-1, 0.0)`; a factor matching the group's metadata replaces the
current best only when its hierarchy index is strictly greater. -/
def resolve_manual_growth (metadata : String → Option String)
    (factors : List ManualGrowthFactor) : ℚ :=
  (factors.foldl
    (fun best factor =>
      if metadata factor.level.name ≠ some factor.value then best
      else if factor.level.index > best.1 then (factor.level.index, factor.percentage)
      else best)
    ((-1 : ℤ), (0 : ℚ))).2

/-- One dataset row.  The nine categorical columns are strings, the measures
are rationals; `situacaoLista` is `none` when the optional
`"SITUAÇÃO LISTA"` key is absent (`row.get("SITUAÇÃO LISTA", "Ativo")`). -/
structure DataRow where
  ano : ℤ
  diretor : String
  siglaUF : String
  tipoProduto : String
  familia : String
  familiaProducao : String
  marca : String
  codProduto : String
  produto : String
  situacaoLista : Option String := some "Ativo"
  fatLiqKg : ℚ
  fatLiqRs : ℚ
deriving DecidableEq

/-- `Hierarchy.hierarchy_key(row)`: the 7-level tuple of stringified values. -/
def DataRow.hierarchyKey (row : DataRow) : List String :=
  [row.diretor, row.siglaUF, row.tipoProduto, row.familia, row.familiaProducao,
   row.marca, row.codProduto]

/-- `row[value_field]` where `value_field` ranges over the two measure
literals `"Fat Liq (Kg)"` and `"Fat Liq (R$)"`. -/
def rowValue (value_field : String) (row : DataRow) : ℚ :=
  if value_field = "Fat Liq (Kg)" then row.fatLiqKg else row.fatLiqRs

/-- One entry of the `grouped` dictionary of `_group_by_hierarchy`: the three
per-year dicts are modelled as partial maps `ℤ → Option ℚ`, and the two
2026-base metadata keys written by the grouping loop are tracked explicitly. -/
structure GroupPayload where
  values : ℤ → Option ℚ
  kg : ℤ → Option ℚ
  revenue : ℤ → Option ℚ
  mdKgBase2026 : Option ℚ
  mdRsBase2026 : Option ℚ

/-- `grouped.setdefault(key, {...})`'s fresh payload. -/
def emptyGroup : GroupPayload :=
  { values := fun _ => none, kg := fun _ => none, revenue := fun _ => none
    mdKgBase2026 := none, mdRsBase2026 := none }

/-- `d[k] = v` on a per-year dict. -/
def updateFn (m : ℤ → Option ℚ) (k : ℤ) (v : ℚ) : ℤ → Option ℚ :=
  fun k' => if k' = k then some v else m k'

/-- The body of the `for row in dataset` loop of `_group_by_hierarchy`:
skip non-`"Ativo"` rows, then assign (not sum) the row's measures into the
per-year dicts of its hierarchy group, recording the 2026 base measures. -/
def groupStep (value_field : String)
    (grouped : List String → Option GroupPayload) (row : DataRow) :
    List String → Option GroupPayload :=
  if row.situacaoLista.getD "Ativo" ≠ "Ativo" then grouped
  else
    let key := row.hierarchyKey
    let g0 := (grouped key).getD emptyGroup
    let g1 : GroupPayload :=
      { g0 with
        values := updateFn g0.values row.ano (rowValue value_field row)
        kg := updateFn g0.kg row.ano row.fatLiqKg
        revenue := updateFn g0.revenue row.ano row.fatLiqRs }
    let g2 :=
      if row.ano = 2026 then
        { g1 with mdKgBase2026 := some row.fatLiqKg, mdRsBase2026 := some row.fatLiqRs }
      else g1
    fun key' => if key' = key then some g2 else grouped key'

/-- `_group_by_hierarchy` (without the trailing `base_price` pass, which is
`compute_base_price` below): fold the grouping step over the dataset. -/
def group_by_hierarchy (value_field : String) (dataset : List DataRow) :
    List String → Option GroupPayload :=
  dataset.foldl (groupStep value_field) (fun _ => none)

/-- `_compute_base_price`: `0.0` when the 2026 volume is absent or zero,
otherwise 2026 revenue divided by 2026 volume. -/
def compute_base_price (g : GroupPayload) : ℚ :=
  match g.kg 2026 with
  | none => 0
  | some kg2026 => if kg2026 = 0 then 0 else (g.revenue 2026).getD 0 / kg2026

/-- `PriceStrategy` from `schemas/core.py`. -/
inductive PriceStrategy
  | hold2026
  | constantGrowth
deriving DecidableEq

/-- One projection row as built by `_build_projection_row` and consumed by
`_apply_price_strategy`; the descriptive metadata columns are elided, only the
keys the pricing pass reads or writes are kept. -/
structure ProjRow where
  ano : ℤ
  fatLiqKg : ℚ
  fatLiqRs : ℚ
  valorBase2026 : Option ℚ
  precoBase2026 : ℚ
  taxaAplicada : ℚ
  situacaoLista : String
  precoProjetado : Option ℚ := none
  receitaProjetada : Option ℚ := none
deriving DecidableEq

/-- `_build_projection_row`: the measure named by `value_field` carries the
projected value, the other measure is the group's 2026 base value from the
metadata (default `0.0`), and the status is forced to `"Planejado"`. -/
def build_projection_row (mdKgBase2026 mdRsBase2026 : Option ℚ) (year : ℤ)
    (value : ℚ) (base_price : ℚ) (base_value : Option ℚ) (value_field : String)
    (growth_rate : ℚ) : ProjRow :=
  { ano := year
    fatLiqKg := if value_field = "Fat Liq (Kg)" then value else mdKgBase2026.getD 0
    fatLiqRs := if value_field = "Fat Liq (R$)" then value else mdRsBase2026.getD 0
    valorBase2026 := base_value
    precoBase2026 := base_price
    taxaAplicada := growth_rate
    situacaoLista := "Planejado" }

/-- `_apply_price_strategy`: per row, compute the projected price (held at the
2026 base, or compounded by `(1 + price_growth_rate)` per year since 2026),
then either keep the projected revenue as-is (`value_field` = revenue) or set
revenue to price × volume (`value_field` = volume). -/
def apply_price_strategy (price_strategy : PriceStrategy) (price_growth_rate : ℚ)
    (value_field : String) (projections : List ProjRow) : List ProjRow :=
  projections.map (fun row =>
    let price :=
      match price_strategy with
      | .hold2026 => row.precoBase2026
      | .constantGrowth => row.precoBase2026 * (1 + price_growth_rate) ^ (row.ano - 2026)
    let revenue :=
      if value_field = "Fat Liq (R$)" then row.fatLiqRs else price * row.fatLiqKg
    let row1 :=
      if value_field = "Fat Liq (R$)" then row else { row with fatLiqRs := price * row.fatLiqKg }
    { row1 with precoProjetado := some price, receitaProjetada := some revenue })

/-- The `(values[year], kg[year], revenue[year])` view of one hierarchy
group's per-year dicts, used to state how `_group_by_hierarchy` fills them. -/
def lookup3 (grouped : List String → Option GroupPayload) (k : List String) (y : ℤ) :
    Option ℚ × Option ℚ × Option ℚ :=
  ((grouped k).bind (fun g => g.values y),
   (grouped k).bind (fun g => g.kg y),
   (grouped k).bind (fun g => g.revenue y))

/-- Concrete fixture: an Active 2026 dataset row. -/
def sampleRowX : DataRow :=
  { ano := 2026, diretor := "D", siglaUF := "SP", tipoProduto := "T", familia := "F"
    familiaProducao := "FP", marca := "M", codProduto := "C1", produto := "P"
    situacaoLista := some "Ativo", fatLiqKg := 5, fatLiqRs := 10 }

/-- Concrete fixture: a second Active row sharing `sampleRowX`'s hierarchy key
and year but carrying different measures. -/
def sampleRowY : DataRow :=
  { sampleRowX with fatLiqKg := 9, fatLiqRs := 18 }

/-- `ForecastRequest.__post_init__` from `schemas/core.py`: reject an empty
dataset, then missing required columns in the first row, then a price growth
rate below `-0.5`.  `datasetKeys` models the per-row key sets of the dataset;
Python displays the missing set alphabetically sorted, which the model keeps
in `REQUIRED_COLUMNS` order (no claim depends on the message ordering). -/
def validate_forecast_request (datasetKeys : List (List String))
    (price_growth_rate : ℚ) : Option String :=
  match datasetKeys with
  | [] => some "Dataset cannot be empty."
  | keys :: _ =>
    let missing := REQUIRED_COLUMNS.filter (fun c => ¬ c ∈ keys)
    if missing ≠ [] then
      some ("Dataset is missing required columns: " ++ String.intercalate ", " missing)
    else if price_growth_rate < -(1/2) then
      some "Price growth rate cannot be lower than -50%."
    else none

end ForecastEngine

namespace LevelScoreService

/-- `DEFAULT_LEVELS` from `level_score_service.py`. -/
def DEFAULT_LEVELS : List (List String) :=
  [["diretor", "sigla_uf", "tipo_produto"],
   ["diretor", "sigla_uf"],
   ["diretor"],
   ["sigla_uf", "tipo_produto"],
   ["tipo_produto", "familia"]]

/-- `LevelInfo` from `level_score_service.py`. -/
structure LevelInfo where
  level_id : String
  dimensions : List String
  combinations : ℕ
deriving DecidableEq

/-- `_level_id`. -/
def levelId (dimensions : List String) : String :=
  String.intercalate "_" dimensions

/-- `LevelScoreRun` model row; `levels` is the deserialized `levels_payload`
and `finished` models whether `finished_at` has been set. -/
structure LevelScoreRun where
  id : ℕ
  status : String
  levels : List LevelInfo
  total_levels : ℕ
  processed_levels : ℕ
  total_combinations : ℕ
  processed_combinations : ℕ
  current_index : ℕ
  avg_duration_ms : Option ℚ
  estimated_seconds : Option ℚ
  finished : Bool
  last_message : Option String
deriving DecidableEq

/-- `LevelScore` model row. -/
structure LevelScore where
  run_id : ℕ
  level_id : String
  dimensions : List String
  cov_nivel : ℚ
  n_combinacoes : ℕ
  score_cov : Option ℚ := none
  score_complex : Option ℚ := none
  score_final : Option ℚ := none
deriving DecidableEq

/-- Python `round(x, 4)` on exact rationals (round to the nearest multiple of
`10 ^ (-4)`). -/
def round4 (x : ℚ) : ℚ :=
  ((round (x * 10000) : ℤ) : ℚ) / 10000

/-- Python `round(x, 2)` on exact rationals. -/
def round2 (x : ℚ) : ℚ :=
  ((round (x * 100) : ℤ) : ℚ) / 100

/-- The inner `normalize` of `_finalize_run`: `0.5` when `max == min`. -/
def normalize (value min_value max_value : ℚ) : ℚ :=
  if max_value = min_value then 1/2 else (value - min_value) / (max_value - min_value)

/-- Python `min` over a nonempty list, seeded with its first element. -/
def listMin (x : ℚ) (xs : List ℚ) : ℚ :=
  xs.foldl min x

/-- Python `max` over a nonempty list, seeded with its first element. -/
def listMax (x : ℚ) (xs : List ℚ) : ℚ :=
  xs.foldl max x

/-- The per-row score assignment of `_finalize_run`. -/
def applyScores (min_cov max_cov min_combo max_combo : ℚ) (row : LevelScore) :
    LevelScore :=
  let norm_cov := normalize row.cov_nivel min_cov max_cov
  let norm_combo := normalize (row.n_combinacoes : ℚ) min_combo max_combo
  let score_cov := round4 (1 - norm_cov)
  let score_complex := round4 (1 - norm_combo)
  { row with
    score_cov := some score_cov
    score_complex := some score_complex
    score_final := some (round4 ((score_cov + score_complex) / 2)) }

/-- `rows = session.exec(select(LevelScore).where(run_id == run_id)).all()`. -/
def runRows (run_id : ℕ) (scores : List LevelScore) : List LevelScore :=
  scores.filter (fun r => r.run_id = run_id)

/-- `min_cov = min(cov_values)` over this run's rows (`0` for no rows, a case
`_finalize_run` returns out of before using it). -/
def covMin (run_id : ℕ) (scores : List LevelScore) : ℚ :=
  match runRows run_id scores with
  | [] => 0
  | r :: rest => listMin r.cov_nivel (rest.map (fun s => s.cov_nivel))

/-- `max_cov = max(cov_values)`. -/
def covMax (run_id : ℕ) (scores : List LevelScore) : ℚ :=
  match runRows run_id scores with
  | [] => 0
  | r :: rest => listMax r.cov_nivel (rest.map (fun s => s.cov_nivel))

/-- `min_combo = min(combo_values)`. -/
def comboMin (run_id : ℕ) (scores : List LevelScore) : ℚ :=
  match runRows run_id scores with
  | [] => 0
  | r :: rest => listMin (r.n_combinacoes : ℚ) (rest.map (fun s => (s.n_combinacoes : ℚ)))

/-- `max_combo = max(combo_values)`. -/
def comboMax (run_id : ℕ) (scores : List LevelScore) : ℚ :=
  match runRows run_id scores with
  | [] => 0
  | r :: rest => listMax (r.n_combinacoes : ℚ) (rest.map (fun s => (s.n_combinacoes : ℚ)))

/-- `_finalize_run`: select this run's rows; if none, do nothing; otherwise
min-max normalize CoV and combination count over those rows and write the
three derived scores into each of them. -/
def finalize_run (run_id : ℕ) (scores : List LevelScore) : List LevelScore :=
  if runRows run_id scores = [] then scores
  else
    scores.map (fun row =>
      if row.run_id = run_id then
        applyScores (covMin run_id scores) (covMax run_id scores)
          (comboMin run_id scores) (comboMax run_id scores) row
      else row)

/-- `process_next_level` as a pure state transition.  The database-derived
volume-weighted CoV and measured combination count for a dimension list are
abstracted as the `metrics` parameter, and the measured wall-clock step
duration (milliseconds) as `duration`. -/
def process_next_level (metrics : List String → ℚ × ℕ) (duration : ℚ)
    (run : LevelScoreRun) (scores : List LevelScore) :
    LevelScoreRun × List LevelScore :=
  if run.status = "completed" then (run, scores)
  else if run.levels.length ≤ run.current_index then
    ({ run with status := "completed", finished := true }, scores)
  else
    let info := (run.levels.get? run.current_index).getD ⟨"", [], 0⟩
    let cov_level := (metrics info.dimensions).1
    let combos_measured := (metrics info.dimensions).2
    let combos_processed := if combos_measured = 0 then info.combinations else combos_measured
    let record : LevelScore :=
      { run_id := run.id, level_id := info.level_id, dimensions := info.dimensions
        cov_nivel := cov_level, n_combinacoes := combos_processed }
    let scores1 := scores ++ [record]
    let processed := run.processed_levels + 1
    let newIndex := run.current_index + 1
    let processedCombos := run.processed_combinations + combos_processed
    let avg : ℚ :=
      match run.avg_duration_ms with
      | some a => if a = 0 then duration else (a * ((processed : ℚ) - 1) + duration) / processed
      | none => duration
    let est : Option ℚ :=
      if avg ≠ 0 ∧ run.total_combinations ≠ 0 then
        some (round2 (((run.total_combinations - processedCombos : ℕ) : ℚ) *
          ((avg / 1000) / ((max combos_processed 1 : ℕ) : ℚ))))
      else run.estimated_seconds
    let run1 : LevelScoreRun :=
      { run with
        status := "running"
        processed_levels := processed
        current_index := newIndex
        processed_combinations := processedCombos
        avg_duration_ms := some avg
        estimated_seconds := est
        last_message := some (info.level_id ++ ": " ++ toString combos_processed ++
          " combinações processadas") }
    if run1.levels.length ≤ run1.current_index then
      ({ run1 with status := "completed", finished := true }, finalize_run run1.id scores1)
    else (run1, scores1)

/-- `get_active_run`: the pending/running run with the greatest id, if any
(`order_by(id.desc()).limit(1)` over the status filter). -/
def get_active_run (runs : List LevelScoreRun) : Option LevelScoreRun :=
  (runs.filter (fun r => r.status = "pending" ∨ r.status = "running")).foldl
    (fun best r =>
      match best with
      | none => some r
      | some b => if b.id < r.id then some r else some b)
    none

/-- `start_level_score_run` (service): pre-count combinations per level via
the abstracted distinct-count query `countCombos`, and build a fresh run in
status `"pending"` with the model defaults (`current_index = 0`, zero
counters).  `levels or DEFAULT_LEVELS` is Python truthiness. -/
def start_level_score_run (countCombos : List String → ℕ)
    (levels : Option (List (List String))) (newId : ℕ) : LevelScoreRun :=
  let target_levels :=
    match levels with
    | none => DEFAULT_LEVELS
    | some ls => if ls = [] then DEFAULT_LEVELS else ls
  let level_infos := target_levels.map (fun dims =>
    ({ level_id := levelId dims, dimensions := dims,
       combinations := countCombos dims } : LevelInfo))
  { id := newId
    status := "pending"
    levels := level_infos
    total_levels := level_infos.length
    total_combinations := (level_infos.map (fun i => i.combinations)).sum
    processed_levels := 0
    processed_combinations := 0
    current_index := 0
    avg_duration_ms := none
    estimated_seconds := none
    finished := false
    last_message := none }

/-- The `POST /level-score/run` endpoint (`api/analytics.py`): refuse when an
active run exists, otherwise create and persist a new run.  Returned as a
state transition on the run table together with the HTTP-level outcome. -/
def api_start_level_score_run (countCombos : List String → ℕ)
    (runs : List LevelScoreRun) (payloadLevels : Option (List (List String)))
    (newId : ℕ) : List LevelScoreRun × Except String LevelScoreRun :=
  match get_active_run runs with
  | some _ => (runs, .error "Já existe um cálculo em andamento.")
  | none =>
    let run := start_level_score_run countCombos payloadLevels newId
    (runs ++ [run], .ok run)

/-- Concrete fixture: a one-level run still in status `"running"` whose cursor
is already past the end of the level list. -/
def samplePastEndRun : LevelScoreRun :=
  { id := 1
    status := "running"
    levels := [{ level_id := "diretor", dimensions := ["diretor"], combinations := 2 }]
    total_levels := 1
    processed_levels := 1
    total_combinations := 2
    processed_combinations := 2
    current_index := 1
    avg_duration_ms := some 1
    estimated_seconds := none
    finished := false
    last_message := none }

/-- Concrete fixture: the single persisted, not yet finalized score row of
`samplePastEndRun`. -/
def samplePastEndScores : List LevelScore :=
  [{ run_id := 1, level_id := "diretor", dimensions := ["diretor"],
     cov_nivel := 0, n_combinacoes := 2 }]

/-- Concrete fixture: a run already in status `"completed"`. -/
def sampleCompletedRun : LevelScoreRun :=
  { samplePastEndRun with status := "completed", finished := true }

/-- Concrete fixture: an unfinalized score row (CoV 0, 1 combination). -/
def sampleScoreA : LevelScore :=
  { run_id := 1, level_id := "a", dimensions := ["a"], cov_nivel := 0, n_combinacoes := 1 }

/-- Concrete fixture: an unfinalized score row (CoV 0, 3 combinations). -/
def sampleScoreB : LevelScore :=
  { run_id := 1, level_id := "b", dimensions := ["b"], cov_nivel := 0, n_combinacoes := 3 }

/-- Concrete fixture: the two-row score table of run 1. -/
def sampleScores : List LevelScore :=
  [sampleScoreA, sampleScoreB]

/-- `sampleScoreA` after finalization of run 1 over `sampleScores`. -/
def sampleFinalizedA : LevelScore :=
  { sampleScoreA with
    score_cov := some (1/2), score_complex := some 1, score_final := some (3/4) }

/-- `sampleScoreB` after finalization of run 1 over `sampleScores`. -/
def sampleFinalizedB : LevelScore :=
  { sampleScoreB with
    score_cov := some (1/2), score_complex := some 0, score_final := some (1/4) }

/-- Concrete fixture: an unfinalized score row (CoV 1, 2 combinations). -/
def sampleScoreC2 : LevelScore :=
  { run_id := 1, level_id := "c2", dimensions := ["c"], cov_nivel := 1, n_combinacoes := 2 }

/-- Concrete fixture: an unfinalized score row (CoV 3, 4 combinations). -/
def sampleScoreC3 : LevelScore :=
  { run_id := 1, level_id := "c3", dimensions := ["d"], cov_nivel := 3, n_combinacoes := 4 }

/-- Concrete fixture: a three-row score table with spread-out CoV values whose
middle row has the non-4-decimal normalization `2/3`. -/
def sampleScoresC : List LevelScore :=
  [sampleScoreA, sampleScoreC2, sampleScoreC3]

end LevelScoreService

section SortInstances

instance : IsTotal (ℤ × ℚ) (fun a b => a.1 ≤ b.1) :=
  ⟨fun a b => le_total a.1 b.1⟩

instance : IsTrans (ℤ × ℚ) (fun a b => a.1 ≤ b.1) :=
  ⟨fun _ _ _ hab hbc => le_trans hab hbc⟩

end SortInstances

namespace AnalyticsService

/-- C1: with at least 2 historical (`≤ 2026`) entries, `compute_baseline`
returns exactly 4 entries for the years 2027–2030 in ascending order, each
volume/revenue obtained by compounding the prior value by `(1 + CAGR)` and
flooring at 0 (the `(i+1)`-fold iterate of the compounding map applied to the
last historical value); with fewer than 2 historical entries it returns `[]`. -/
theorem compute_baseline_shape (rt : ℚ → ℤ → ℚ) (yearly : List (ℤ × ℚ × ℚ)) :
    (2 ≤ (historicalYears yearly).length →
      compute_baseline rt yearly =
        [2027, 2028, 2029, 2030].zipWith
          (fun (y : ℤ) (i : ℕ) =>
            (y,
              (fun x => max 0 (x * (1 + volumeCagr rt yearly)))^[i + 1] (endVolume yearly),
              (fun x => max 0 (x * (1 + revenueCagr rt yearly)))^[i + 1] (endRevenue yearly)))
          [0, 1, 2, 3]) ∧
    ((historicalYears yearly).length < 2 → compute_baseline rt yearly = []) := by
  constructor
  · intro h2
    have hne : yearly ≠ [] := by
      intro h
      rw [h] at h2
      simp [historicalYears] at h2
    have hnot : ¬ (historicalYears yearly).length < 2 := not_lt.mpr h2
    have hcb : compute_baseline rt yearly
        = projectYears (volumeCagr rt yearly) (revenueCagr rt yearly)
            [2027, 2028, 2029, 2030] (endVolume yearly) (endRevenue yearly) := by
      unfold compute_baseline
      rw [if_neg hne, if_neg hnot]
    rw [hcb]
    rfl
  · intro hlt
    unfold compute_baseline
    by_cases hne : yearly = []
    · rw [if_pos hne]
    · rw [if_neg hne, if_pos hlt]

/-- Witness for C1 at concrete inputs: a series with two historical entries
produces the four compounded 2027–2030 entries, and a one-entry series
produces `[]`. -/
theorem compute_baseline_shape_witness :
    compute_baseline (fun x _ => x) [((2025 : ℤ), (1 : ℚ), 1), (2026, 2, 4)] =
        [(2027, 4, 16), (2028, 8, 64), (2029, 16, 256), (2030, 32, 1024)] ∧
      compute_baseline (fun x _ => x) [((2026 : ℤ), (1 : ℚ), 1)] = [] := by
  constructor
  · rw [(compute_baseline_shape (fun x _ => x) _).1 (by decide)]
    norm_num [List.zipWith, Function.iterate_succ_apply, Function.iterate_zero_apply,
      volumeCagr, revenueCagr, safeCagr, endVolume, endRevenue, startVolume, startRevenue,
      periods, startYear, endYear, historicalYears, firstWhereYear, List.find?]
  · exact (compute_baseline_shape (fun x _ => x) _).2 (by decide)

/-- C6: `generate_aggregate` errors exactly when the dimension list is empty
or contains a name outside `ALLOWED_FIELDS`; in the non-empty invalid case the
message enumerates exactly the offending field names; and on a non-empty
all-valid dimension list it succeeds with every group's year entries sorted
ascending. -/
theorem generate_aggregate_spec (rows : List (List String × ℤ × ℚ))
    (group_by : List String) (metric : String) :
    ((∃ e, generate_aggregate rows group_by metric = Except.error e) ↔
      (group_by = [] ∨ ∃ f ∈ group_by, ¬ f ∈ ALLOWED_FIELDS)) ∧
    (group_by ≠ [] → group_by.filter (fun f => ¬ f ∈ ALLOWED_FIELDS) ≠ [] →
      generate_aggregate rows group_by metric =
        Except.error ("Campos inválidos para agrupamento: " ++
          String.intercalate ", " (group_by.filter (fun f => ¬ f ∈ ALLOWED_FIELDS)))) ∧
    (group_by ≠ [] → (∀ f ∈ group_by, f ∈ ALLOWED_FIELDS) →
      ∃ res, generate_aggregate rows group_by metric = Except.ok res ∧
        ∀ g ∈ res.rows, List.Sorted (fun a b => a.year ≤ b.year) g.values) := by
  by_cases hgb : group_by = []
  · subst hgb
    refine ⟨?_, ?_, ?_⟩
    · simp [generate_aggregate]
    · intro h; exact absurd rfl h
    · intro h; exact absurd rfl h
  · by_cases hinv : group_by.filter (fun f => ¬ f ∈ ALLOWED_FIELDS) = []
    · have hall : ∀ f ∈ group_by, f ∈ ALLOWED_FIELDS := by
        intro f hf
        by_contra hc
        have : f ∈ group_by.filter (fun g => ¬ g ∈ ALLOWED_FIELDS) :=
          List.mem_filter.mpr ⟨hf, by simpa using hc⟩
        rw [hinv] at this
        exact absurd this (List.not_mem_nil f)
      have hok : generate_aggregate rows group_by metric =
          Except.ok
            { group_by := group_by
              metric := metric
              rows := (groupRows rows).map (fun g =>
                { key := group_by.zip g.1
                  values := (List.insertionSort (fun a b => a.1 ≤ b.1) g.2).map
                    (fun v =>
                      { year := v.1
                        volume := if metric = "volume" then v.2 else 0
                        revenue := if metric = "revenue" then v.2 else 0 }) }) } := by
        unfold generate_aggregate
        rw [if_neg hgb]
        simp only [hinv, ne_eq, not_true_eq_false, reduceIte]
      refine ⟨?_, ?_, ?_⟩
      · constructor
        · rintro ⟨e, he⟩
          rw [hok] at he
          exact absurd he (by simp)
        · rintro (h | ⟨f, hf, hnotin⟩)
          · exact absurd h hgb
          · exact absurd (hall f hf) hnotin
      · intro _ h
        exact absurd hinv h
      · intro _ _
        refine ⟨_, hok, ?_⟩
        intro g hg
        simp only [List.mem_map] at hg
        obtain ⟨g0, _, rfl⟩ := hg
        have hsorted : List.Sorted (fun a b : ℤ × ℚ => a.1 ≤ b.1)
            (List.insertionSort (fun a b : ℤ × ℚ => a.1 ≤ b.1) g0.2) :=
          List.sorted_insertionSort _ g0.2
        exact List.Pairwise.map _ (fun a b h => h) hsorted
    · have herr : generate_aggregate rows group_by metric =
          Except.error ("Campos inválidos para agrupamento: " ++
            String.intercalate ", " (group_by.filter (fun f => ¬ f ∈ ALLOWED_FIELDS))) := by
        unfold generate_aggregate
        rw [if_neg hgb]
        simp only [ne_eq, hinv, not_false_eq_true, reduceIte]
      refine ⟨?_, ?_, ?_⟩
      · constructor
        · intro _
          right
          obtain ⟨f, hf⟩ := List.exists_mem_of_ne_nil _ hinv
          have := List.mem_filter.mp hf
          exact ⟨f, this.1, by simpa using this.2⟩
        · intro _
          exact ⟨_, herr⟩
      · intro _ _
        exact herr
      · intro _ hall
        exfalso
        apply hinv
        rw [List.filter_eq_nil_iff]
        intro f hf
        simpa using hall f hf

/-- Witness for C6 at concrete inputs: an unknown dimension name yields the
error naming exactly that field, and a valid grouping succeeds with sorted
year entries. -/
theorem generate_aggregate_spec_witness :
    generate_aggregate [] ["foo", "diretor"] "volume" =
        Except.error "Campos inválidos para agrupamento: foo" ∧
      ∃ res, generate_aggregate [(["A"], 2026, 5), (["A"], 2024, 3)] ["diretor"] "volume"
          = Except.ok res ∧
        ∀ g ∈ res.rows, List.Sorted (fun a b => a.year ≤ b.year) g.values := by
  constructor
  · have h := (generate_aggregate_spec [] ["foo", "diretor"] "volume").2.1
      (by decide) (by decide)
    rw [h]
    rfl
  · exact (generate_aggregate_spec [(["A"], 2026, 5), (["A"], 2024, 3)] ["diretor"]
      "volume").2.2 (by decide) (by decide)

end AnalyticsService

namespace PreprocessService

/-- C8: the scenario generator yields exactly the three scenarios
`base`/`optimistic`/`pessimistic` with multipliers `(1, 1)`, `(1.05, 1.04)` and
`(0.97, 0.97)`, and each scenario's series is the historical (`≤ 2026`) series
concatenated with the baseline — or, when the baseline is empty, the existing
future (`> 2026`) series — with volume and revenue scaled independently by the
scenario's multipliers. -/
theorem generate_preprocess_payload_spec (rt : ℚ → ℤ → ℚ)
    (yearly : List (ℤ × ℚ × ℚ)) :
    generate_preprocess_payload rt yearly =
      [({ id := "base", label := "Base 2030"
          description := "Projeção automática (CAGR) usando o histórico filtrado." },
        yearly.filter (fun e => e.1 ≤ 2026) ++
          (if AnalyticsService.compute_baseline rt yearly = []
           then yearly.filter (fun e => 2026 < e.1)
           else AnalyticsService.compute_baseline rt yearly).map
            (fun e => (e.1, e.2.1 * 1, e.2.2 * 1))),
       ({ id := "optimistic", label := "Otimista"
          description := "Incremento de +5% em volume e +4% em receita para os anos projetados."
          volume_multiplier := 21/20, revenue_multiplier := 26/25 },
        yearly.filter (fun e => e.1 ≤ 2026) ++
          (if AnalyticsService.compute_baseline rt yearly = []
           then yearly.filter (fun e => 2026 < e.1)
           else AnalyticsService.compute_baseline rt yearly).map
            (fun e => (e.1, e.2.1 * (21/20), e.2.2 * (26/25)))),
       ({ id := "pessimistic", label := "Pessimista"
          description := "Redução de -3% em volume e receita nos anos projetados."
          volume_multiplier := 97/100, revenue_multiplier := 97/100 },
        yearly.filter (fun e => e.1 ≤ 2026) ++
          (if AnalyticsService.compute_baseline rt yearly = []
           then yearly.filter (fun e => 2026 < e.1)
           else AnalyticsService.compute_baseline rt yearly).map
            (fun e => (e.1, e.2.1 * (97/100), e.2.2 * (97/100))))] := by
  rfl

end PreprocessService

namespace ForecastEngine

theorem HLevel.index_nonneg (l : HLevel) : (0 : ℤ) ≤ l.index := by
  unfold HLevel.index
  exact Int.natCast_nonneg _

/-- The `best_match` accumulator of `_resolve_manual_growth` is left unchanged
by a scan over factors none of which matches strictly deeper than it. -/
theorem resolve_foldl_noUpdate (md : String → Option String) :
    ∀ (fs : List ManualGrowthFactor) (b : ℤ × ℚ),
      (∀ f ∈ fs, md f.level.name = some f.value → f.level.index ≤ b.1) →
      fs.foldl
        (fun best factor =>
          if md factor.level.name ≠ some factor.value then best
          else if factor.level.index > best.1 then (factor.level.index, factor.percentage)
          else best) b = b := by
  intro fs
  induction fs with
  | nil => intro b _; rfl
  | cons f fs ih =>
    intro b hb
    have hstep : (if md f.level.name ≠ some f.value then b
        else if f.level.index > b.1 then (f.level.index, f.percentage) else b) = b := by
      by_cases hm : md f.level.name = some f.value
      · have hle := hb f (List.mem_cons_self f fs) hm
        rw [if_neg (fun hc => hc hm), if_neg (not_lt.mpr hle)]
      · rw [if_pos hm]
    rw [List.foldl_cons, hstep]
    exact ih b (fun g hg => hb g (List.mem_cons_of_mem f hg))

/-- The scan of `_resolve_manual_growth` ends on the percentage of the first
factor attaining the maximal matching hierarchy depth, provided the
accumulator starts strictly below that depth. -/
theorem resolve_foldl_best (md : String → Option String) :
    ∀ (fs : List ManualGrowthFactor) (b : ℤ × ℚ) (i : ℕ) (hi : i < fs.length),
      md (fs.get ⟨i, hi⟩).level.name = some (fs.get ⟨i, hi⟩).value →
      (∀ (j : ℕ) (hj : j < fs.length),
        md (fs.get ⟨j, hj⟩).level.name = some (fs.get ⟨j, hj⟩).value →
        (fs.get ⟨j, hj⟩).level.index ≤ (fs.get ⟨i, hi⟩).level.index) →
      (∀ (j : ℕ) (hj : j < i),
        md (fs.get ⟨j, hj.trans hi⟩).level.name = some (fs.get ⟨j, hj.trans hi⟩).value →
        (fs.get ⟨j, hj.trans hi⟩).level.index < (fs.get ⟨i, hi⟩).level.index) →
      b.1 < (fs.get ⟨i, hi⟩).level.index →
      (fs.foldl
        (fun best factor =>
          if md factor.level.name ≠ some factor.value then best
          else if factor.level.index > best.1 then (factor.level.index, factor.percentage)
          else best) b).2 = (fs.get ⟨i, hi⟩).percentage := by
  intro fs
  induction fs with
  | nil => intro b i hi; exact absurd hi (by simp)
  | cons f fs ih =>
    intro b i hi hm hall hpre hb
    cases i with
    | zero =>
      have hm0 : md f.level.name = some f.value := hm
      have hb0 : f.level.index > b.1 := hb
      have hstep : (if md f.level.name ≠ some f.value then b
          else if f.level.index > b.1 then (f.level.index, f.percentage) else b)
          = (f.level.index, f.percentage) := by
        rw [if_neg (fun hc => hc hm0), if_pos hb0]
      rw [List.foldl_cons, hstep]
      have hrest : ∀ g ∈ fs, md g.level.name = some g.value →
          g.level.index ≤ (f.level.index, f.percentage).1 := by
        intro g hg hgm
        obtain ⟨⟨n, hn⟩, hgn⟩ := List.mem_iff_get.mp hg
        subst hgn
        exact hall (n + 1) (Nat.succ_lt_succ hn) hgm
      rw [resolve_foldl_noUpdate md fs _ hrest]
      rfl
    | succ n =>
      have hn : n < fs.length := Nat.lt_of_succ_lt_succ hi
      have hbn : b.1 < (fs.get ⟨n, hn⟩).level.index := hb
      have hb' : (if md f.level.name ≠ some f.value then b
          else if f.level.index > b.1 then (f.level.index, f.percentage) else b).1
          < (fs.get ⟨n, hn⟩).level.index := by
        by_cases hmf : md f.level.name = some f.value
        · have hf0 : f.level.index < (fs.get ⟨n, hn⟩).level.index :=
            hpre 0 (Nat.succ_pos n) hmf
          rw [if_neg (fun hc => hc hmf)]
          by_cases hgt : f.level.index > b.1
          · rw [if_pos hgt]
            exact hf0
          · rw [if_neg hgt]
            exact hbn
        · rw [if_pos hmf]
          exact hbn
      rw [List.foldl_cons]
      have hm' : md (fs.get ⟨n, hn⟩).level.name = some (fs.get ⟨n, hn⟩).value := hm
      have hall' : ∀ (j : ℕ) (hj : j < fs.length),
          md (fs.get ⟨j, hj⟩).level.name = some (fs.get ⟨j, hj⟩).value →
          (fs.get ⟨j, hj⟩).level.index ≤ (fs.get ⟨n, hn⟩).level.index := by
        intro j hj hjm
        exact hall (j + 1) (Nat.succ_lt_succ hj) hjm
      have hpre' : ∀ (j : ℕ) (hj : j < n),
          md (fs.get ⟨j, hj.trans hn⟩).level.name = some (fs.get ⟨j, hj.trans hn⟩).value →
          (fs.get ⟨j, hj.trans hn⟩).level.index < (fs.get ⟨n, hn⟩).level.index := by
        intro j hj hjm
        exact hpre (j + 1) (Nat.succ_lt_succ hj) hjm
      exact ih _ n hn hm' hall' hpre' hb'

/-- C2 (amended): in the manual-percentage strategy, a group's growth rate is
the percentage of the matching factor at the deepest hierarchy level, and when
several matching factors share that deepest level the FIRST such factor in the
supplied list wins (the code keeps the incumbent on ties); a group with no
matching factor gets rate 0. -/
theorem resolve_manual_growth_spec (md : String → Option String)
    (factors : List ManualGrowthFactor) :
    ((∀ f ∈ factors, md f.level.name ≠ some f.value) →
      resolve_manual_growth md factors = 0) ∧
    (∀ (i : ℕ) (hi : i < factors.length),
      md (factors.get ⟨i, hi⟩).level.name = some (factors.get ⟨i, hi⟩).value →
      (∀ (j : ℕ) (hj : j < factors.length),
        md (factors.get ⟨j, hj⟩).level.name = some (factors.get ⟨j, hj⟩).value →
        (factors.get ⟨j, hj⟩).level.index ≤ (factors.get ⟨i, hi⟩).level.index) →
      (∀ (j : ℕ) (hj : j < i),
        md (factors.get ⟨j, hj.trans hi⟩).level.name = some (factors.get ⟨j, hj.trans hi⟩).value →
        (factors.get ⟨j, hj.trans hi⟩).level.index < (factors.get ⟨i, hi⟩).level.index) →
      resolve_manual_growth md factors = (factors.get ⟨i, hi⟩).percentage) := by
  constructor
  · intro hnone
    unfold resolve_manual_growth
    rw [resolve_foldl_noUpdate md factors _ (fun f hf hm => absurd hm (hnone f hf))]
  · intro i hi hm hall hpre
    unfold resolve_manual_growth
    exact resolve_foldl_best md factors (-1, 0) i hi hm hall hpre
      (lt_of_lt_of_le (by norm_num) (HLevel.index_nonneg _))

/-- Counterexample to C2 as stated: two identical-depth matching factors with
different percentages — the code returns the FIRST one's percentage (1/10),
not the last one's (2/10) as the claim asserts. -/
theorem resolve_manual_growth_last_wins_false :
    resolve_manual_growth (fun s => if s = "Diretor" then some "A" else none)
        [{ level := .diretor, value := "A", percentage := 1/10 },
         { level := .diretor, value := "A", percentage := 2/10 }] = 1/10 ∧
      (1 : ℚ)/10 ≠ 2/10 := by
  constructor
  · rfl
  · norm_num

/-- Witness for C2 at concrete inputs: the deepest (Marca-level) matching
factor wins over a Diretor-level one, and a factor list with no match gives
rate 0. -/
theorem resolve_manual_growth_spec_witness :
    resolve_manual_growth
        (fun s => if s = "Marca" then some "M" else if s = "Diretor" then some "D" else none)
        [{ level := .diretor, value := "D", percentage := 5/100 },
         { level := .marca, value := "M", percentage := 7/100 }] = 7/100 ∧
      resolve_manual_growth (fun _ => none)
        [{ level := .familia, value := "X", percentage := 1 }] = 0 := by
  constructor
  · exact (resolve_manual_growth_spec _ _).2 1 (by decide) (by decide) (by decide) (by decide)
  · exact (resolve_manual_growth_spec _ _).1 (by decide)

end ForecastEngine

namespace LevelScoreService

theorem listMin_le (x : ℚ) (xs : List ℚ) :
    listMin x xs ≤ x ∧ ∀ y ∈ xs, listMin x xs ≤ y := by
  induction xs generalizing x with
  | nil => exact ⟨le_refl x, by simp⟩
  | cons z zs ih =>
    have h := ih (min x z)
    refine ⟨h.1.trans (min_le_left x z), ?_⟩
    intro y hy
    rcases List.mem_cons.mp hy with h1 | h2
    · subst h1
      exact h.1.trans (min_le_right x y)
    · exact h.2 y h2

theorem le_listMax (x : ℚ) (xs : List ℚ) :
    x ≤ listMax x xs ∧ ∀ y ∈ xs, y ≤ listMax x xs := by
  induction xs generalizing x with
  | nil => exact ⟨le_refl x, by simp⟩
  | cons z zs ih =>
    have h := ih (max x z)
    refine ⟨(le_max_left x z).trans h.1, ?_⟩
    intro y hy
    rcases List.mem_cons.mp hy with h1 | h2
    · subst h1
      exact (le_max_right x y).trans h.1
    · exact h.2 y h2

theorem round4_nonneg (x : ℚ) (h0 : 0 ≤ x) : 0 ≤ round4 x := by
  unfold round4
  apply div_nonneg _ (by norm_num)
  rw [round_eq]
  have : (0 : ℚ) ≤ x * 10000 + 1 / 2 := by positivity
  exact_mod_cast Int.le_floor.mpr (by exact_mod_cast this)

theorem round4_le_one (x : ℚ) (h1 : x ≤ 1) : round4 x ≤ 1 := by
  unfold round4
  rw [div_le_one (by norm_num)]
  rw [round_eq]
  have hlt : x * 10000 + 1 / 2 < ((10001 : ℤ) : ℚ) := by
    push_cast
    nlinarith
  have := Int.floor_lt.mpr hlt
  exact_mod_cast Int.lt_add_one_iff.mp this

theorem round4_half : round4 (1 / 2) = 1 / 2 := by
  unfold round4
  rw [show ((1 : ℚ) / 2) * 10000 = ((5000 : ℤ) : ℚ) by norm_num, round_intCast]
  norm_num

theorem normalize_bounds (v mn mx : ℚ) (h1 : mn ≤ v) (h2 : v ≤ mx) :
    0 ≤ normalize v mn mx ∧ normalize v mn mx ≤ 1 := by
  unfold normalize
  by_cases h : mx = mn
  · rw [if_pos h]
    norm_num
  · rw [if_neg h]
    have hlt : mn < mx := lt_of_le_of_ne (h1.trans h2) (fun hc => h hc.symm)
    constructor
    · exact div_nonneg (by linarith) (by linarith)
    · rw [div_le_one (by linarith)]
      linarith

theorem cov_bounds (run_id : ℕ) (scores : List LevelScore) (r : LevelScore)
    (hr : r ∈ runRows run_id scores) :
    covMin run_id scores ≤ r.cov_nivel ∧ r.cov_nivel ≤ covMax run_id scores := by
  unfold covMin covMax
  cases hrw : runRows run_id scores with
  | nil => rw [hrw] at hr; exact absurd hr (List.not_mem_nil r)
  | cons r0 rest =>
    rw [hrw] at hr
    rcases List.mem_cons.mp hr with h1 | h2
    · subst h1
      exact ⟨(listMin_le _ _).1, (le_listMax _ _).1⟩
    · have hmem : r.cov_nivel ∈ rest.map (fun s => s.cov_nivel) :=
        List.mem_map_of_mem _ h2
      exact ⟨(listMin_le _ _).2 _ hmem, (le_listMax _ _).2 _ hmem⟩

theorem combo_bounds (run_id : ℕ) (scores : List LevelScore) (r : LevelScore)
    (hr : r ∈ runRows run_id scores) :
    comboMin run_id scores ≤ (r.n_combinacoes : ℚ) ∧
      (r.n_combinacoes : ℚ) ≤ comboMax run_id scores := by
  unfold comboMin comboMax
  cases hrw : runRows run_id scores with
  | nil => rw [hrw] at hr; exact absurd hr (List.not_mem_nil r)
  | cons r0 rest =>
    rw [hrw] at hr
    rcases List.mem_cons.mp hr with h1 | h2
    · subst h1
      exact ⟨(listMin_le _ _).1, (le_listMax _ _).1⟩
    · have hmem : (r.n_combinacoes : ℚ) ∈ rest.map (fun s => (s.n_combinacoes : ℚ)) :=
        List.mem_map_of_mem _ h2
      exact ⟨(listMin_le _ _).2 _ hmem, (le_listMax _ _).2 _ hmem⟩

/-- C3 (amended): after finalization of a run with at least one score row,
every one of the run's rows carries `score_coverage = round₄(1 − normalized
CoV)`, `score_complexity = round₄(1 − normalized combination count)` and
`score_final = round₄` of their mean, all three in `[0, 1]`; and when all the
run's rows share one CoV (min = max), every coverage score is exactly `0.5`. -/
theorem finalize_run_spec (run_id : ℕ) (scores : List LevelScore)
    (hne : runRows run_id scores ≠ []) :
    ∀ row ∈ finalize_run run_id scores, row.run_id = run_id →
      ∃ c x f, row.score_cov = some c ∧ row.score_complex = some x ∧
        row.score_final = some f ∧
        0 ≤ c ∧ c ≤ 1 ∧ 0 ≤ x ∧ x ≤ 1 ∧ 0 ≤ f ∧ f ≤ 1 ∧
        c = round4 (1 - normalize row.cov_nivel (covMin run_id scores)
          (covMax run_id scores)) ∧
        x = round4 (1 - normalize (row.n_combinacoes : ℚ) (comboMin run_id scores)
          (comboMax run_id scores)) ∧
        f = round4 ((c + x) / 2) ∧
        (covMin run_id scores = covMax run_id scores → c = 1/2) := by
  intro row hrow hid
  rw [finalize_run, if_neg hne] at hrow
  obtain ⟨row0, hrow0, heq⟩ := List.mem_map.mp hrow
  by_cases h0 : row0.run_id = run_id
  · rw [if_pos h0] at heq
    subst heq
    set c := round4 (1 - normalize row0.cov_nivel (covMin run_id scores)
      (covMax run_id scores)) with hc
    set x := round4 (1 - normalize (row0.n_combinacoes : ℚ) (comboMin run_id scores)
      (comboMax run_id scores)) with hx
    have hmem : row0 ∈ runRows run_id scores :=
      List.mem_filter.mpr ⟨hrow0, by simpa using h0⟩
    have hcv := cov_bounds run_id scores row0 hmem
    have hcb := combo_bounds run_id scores row0 hmem
    have hnc := normalize_bounds _ _ _ hcv.1 hcv.2
    have hnx := normalize_bounds _ _ _ hcb.1 hcb.2
    have hc0 : 0 ≤ c := round4_nonneg _ (by linarith [hnc.2])
    have hc1 : c ≤ 1 := round4_le_one _ (by linarith [hnc.1])
    have hx0 : 0 ≤ x := round4_nonneg _ (by linarith [hnx.2])
    have hx1 : x ≤ 1 := round4_le_one _ (by linarith [hnx.1])
    refine ⟨c, x, round4 ((c + x) / 2), rfl, rfl, rfl, hc0, hc1, hx0, hx1,
      round4_nonneg _ (by linarith), round4_le_one _ (by linarith),
      hc.trans rfl, hx.trans rfl, rfl, ?_⟩
    intro htie
    have : normalize row0.cov_nivel (covMin run_id scores) (covMax run_id scores)
        = 1/2 := by
      unfold normalize
      rw [if_pos htie.symm]
    rw [hc, this]
    norm_num
    exact round4_half
  · rw [if_neg h0] at heq
    subst heq
    exact absurd hid h0

/-- Witness for C3 at a concrete two-row run (identical CoV 0, combination
counts 1 and 3): the first finalized row scores coverage 1/2 (the tie value),
complexity 1, final 3/4. -/
theorem finalize_run_spec_witness :
    ∃ c x f, sampleFinalizedA.score_cov = some c ∧
      sampleFinalizedA.score_complex = some x ∧
      sampleFinalizedA.score_final = some f ∧
      0 ≤ c ∧ c ≤ 1 ∧ 0 ≤ x ∧ x ≤ 1 ∧ 0 ≤ f ∧ f ≤ 1 ∧
      c = round4 (1 - normalize sampleFinalizedA.cov_nivel (covMin 1 sampleScores)
        (covMax 1 sampleScores)) ∧
      x = round4 (1 - normalize (sampleFinalizedA.n_combinacoes : ℚ)
        (comboMin 1 sampleScores) (comboMax 1 sampleScores)) ∧
      f = round4 ((c + x) / 2) ∧
      (covMin 1 sampleScores = covMax 1 sampleScores → c = 1/2) := by
  refine finalize_run_spec 1 sampleScores (by decide) sampleFinalizedA ?_ (by decide)
  have h : finalize_run 1 sampleScores = [sampleFinalizedA, sampleFinalizedB] := by
    norm_num [finalize_run, runRows, sampleScores, sampleScoreA, sampleScoreB,
      sampleFinalizedA, sampleFinalizedB, applyScores, covMin, covMax, comboMin,
      comboMax, listMin, listMax, normalize, round4, round_eq]
    intro hcon
    exact absurd hcon (by simp)
  rw [h]
  exact List.mem_cons_self _ _

end LevelScoreService

namespace LevelScoreService

/-- Counterexample to C3 as stated: with CoV values {0, 1, 3} the middle row's
stored coverage score is the 4-decimal rounding `6667/10000`, not the exact
`1 − minmax-normalized(CoV) = 2/3` the claim asserts. -/
theorem finalize_run_exact_normalization_false :
    (finalize_run 1 sampleScoresC).map (fun r => r.score_cov) =
        [some 1, some (6667/10000), some 0] ∧
      (6667/10000 : ℚ) ≠
        1 - normalize sampleScoreC2.cov_nivel (covMin 1 sampleScoresC)
          (covMax 1 sampleScoresC) := by
  constructor
  · norm_num [finalize_run, runRows, sampleScoresC, sampleScoreA, sampleScoreC2,
      sampleScoreC3, applyScores, covMin, covMax, comboMin, comboMax, listMin,
      listMax, normalize, round4, round_eq]
    rw [if_neg (by simp)]
    rfl
  · norm_num [normalize, covMin, covMax, runRows, sampleScoresC, sampleScoreA,
      sampleScoreC2, sampleScoreC3, listMin, listMax]

/-- C4 (amended): `process_next_level` on a run already in status
`"completed"` returns the state unchanged (no error); on a run that is not
completed but whose cursor is at or past the end of the level list it only
marks the run completed and sets the finish flag — the score rows are returned
untouched, i.e. no finalization happens in this branch. -/
theorem process_next_level_terminal (metrics : List String → ℚ × ℕ) (duration : ℚ)
    (run : LevelScoreRun) (scores : List LevelScore) :
    (run.status = "completed" →
      process_next_level metrics duration run scores = (run, scores)) ∧
    (run.status ≠ "completed" → run.levels.length ≤ run.current_index →
      process_next_level metrics duration run scores =
        ({ run with status := "completed", finished := true }, scores)) := by
  constructor
  · intro h
    unfold process_next_level
    rw [if_pos h]
  · intro h hlen
    unfold process_next_level
    rw [if_neg h, if_pos hlen]

/-- Counterexample to C4 as stated: a `"running"` run whose cursor is past the
end gets marked completed, but its single score row keeps `score_cov = none`
(scoring is NOT finalized there), although `_finalize_run` on that row would
have set `score_cov = some (1/2)`. -/
theorem process_next_level_past_end_no_finalize :
    process_next_level (fun _ => (0, 0)) 0 samplePastEndRun samplePastEndScores =
        ({ samplePastEndRun with status := "completed", finished := true },
          samplePastEndScores) ∧
      samplePastEndScores.map (fun r => r.score_cov) = [none] ∧
      (finalize_run 1 samplePastEndScores).map (fun r => r.score_cov) = [some (1/2)] := by
  refine ⟨?_, by decide, ?_⟩
  · unfold process_next_level
    rw [if_neg (by decide), if_pos (by decide)]
  · norm_num [finalize_run, runRows, samplePastEndScores, applyScores, covMin,
      covMax, comboMin, comboMax, listMin, listMax, normalize, round4, round_eq]

/-- Witness for C4 at concrete states: a completed run is returned unchanged,
and a running run with the cursor past the end is completed with its score
rows untouched. -/
theorem process_next_level_terminal_witness :
    process_next_level (fun _ => (0, 0)) 0 sampleCompletedRun samplePastEndScores =
        (sampleCompletedRun, samplePastEndScores) ∧
      process_next_level (fun _ => (0, 1)) 7 samplePastEndRun samplePastEndScores =
        ({ samplePastEndRun with status := "completed", finished := true },
          samplePastEndScores) := by
  constructor
  · exact (process_next_level_terminal _ _ _ _).1 (by decide)
  · exact (process_next_level_terminal _ _ _ _).2 (by decide) (by decide)

theorem active_foldl_some :
    ∀ (l : List LevelScoreRun) (b : LevelScoreRun),
      (l.foldl (fun best r =>
        match best with
        | none => some r
        | some b => if b.id < r.id then some r else some b) (some b)) ≠ none := by
  intro l
  induction l with
  | nil => intro b h; exact absurd h (by simp)
  | cons r l ih =>
    intro b
    rw [List.foldl_cons]
    show (l.foldl _ (if b.id < r.id then some r else some b)) ≠ none
    by_cases h : b.id < r.id
    · rw [if_pos h]; exact ih r
    · rw [if_neg h]; exact ih b

/-- C5: starting a level-score run through the API fails with the
already-active error — leaving the run table unchanged — whenever some run is
pending or running, and succeeds once every run is completed, appending a
fresh run in status `"pending"` with `current_index = 0`. -/
theorem api_start_level_score_run_spec (countCombos : List String → ℕ)
    (runs : List LevelScoreRun) (payloadLevels : Option (List (List String)))
    (newId : ℕ) :
    ((∃ r ∈ runs, r.status = "pending" ∨ r.status = "running") →
      api_start_level_score_run countCombos runs payloadLevels newId =
        (runs, Except.error "Já existe um cálculo em andamento.")) ∧
    ((∀ r ∈ runs, r.status = "completed") →
      ∃ run, api_start_level_score_run countCombos runs payloadLevels newId =
        (runs ++ [run], Except.ok run) ∧ run.status = "pending" ∧
        run.current_index = 0) := by
  constructor
  · rintro ⟨r, hr, hact⟩
    have hmem : r ∈ runs.filter (fun s => s.status = "pending" ∨ s.status = "running") :=
      List.mem_filter.mpr ⟨hr, by simpa using hact⟩
    have hne : runs.filter (fun s => s.status = "pending" ∨ s.status = "running") ≠ [] :=
      fun hc => by rw [hc] at hmem; exact absurd hmem (List.not_mem_nil r)
    obtain ⟨f, fs, hff⟩ := List.exists_cons_of_ne_nil hne
    have hsome : get_active_run runs ≠ none := by
      unfold get_active_run
      rw [hff, List.foldl_cons]
      exact active_foldl_some fs f
    obtain ⟨x, hx⟩ := Option.ne_none_iff_exists'.mp hsome
    unfold api_start_level_score_run
    rw [hx]
  · intro hall
    have hfil : runs.filter (fun s => s.status = "pending" ∨ s.status = "running") = [] := by
      rw [List.filter_eq_nil_iff]
      intro r hr
      have := hall r hr
      simp [this]
    have hnone : get_active_run runs = none := by
      unfold get_active_run
      rw [hfil]
      rfl
    unfold api_start_level_score_run
    rw [hnone]
    exact ⟨start_level_score_run countCombos payloadLevels newId, rfl, rfl, rfl⟩

/-- Witness for C5 at concrete states: one running run blocks a new start and
leaves the table unchanged; an all-completed table accepts a new pending run
with cursor 0. -/
theorem api_start_level_score_run_spec_witness :
    api_start_level_score_run (fun _ => 0) [samplePastEndRun] none 2 =
        ([samplePastEndRun], Except.error "Já existe um cálculo em andamento.") ∧
      ∃ run, api_start_level_score_run (fun _ => 0) [sampleCompletedRun] none 2 =
        ([sampleCompletedRun] ++ [run], Except.ok run) ∧ run.status = "pending" ∧
        run.current_index = 0 := by
  constructor
  · exact (api_start_level_score_run_spec _ _ _ _).1
      ⟨samplePastEndRun, by decide, by decide⟩
  · exact (api_start_level_score_run_spec _ _ _ _).2 (by decide)

end LevelScoreService

namespace ForecastEngine

/-- C7: composing `_build_projection_row` with `_apply_price_strategy`, every
priced row has status `"Planejado"`; with `value_field` = revenue the output
revenue is the strategy-projected value unchanged and the volume is the
group's 2026 base volume; with `value_field` = volume the output volume is the
projected value and the revenue is the projected price times it, the price
being the 2026 base price (hold) or its compounding by the price growth rate
per year past 2026 (constant growth). -/
theorem apply_price_strategy_spec (mdKg mdRs : Option ℚ) (year : ℤ)
    (value base_price : ℚ) (base_value : Option ℚ) (vf : String)
    (growth rate : ℚ) (strategy : PriceStrategy)
    (hvf : vf = "Fat Liq (Kg)" ∨ vf = "Fat Liq (R$)") :
    ∃ out, apply_price_strategy strategy rate vf
        [build_projection_row mdKg mdRs year value base_price base_value vf growth]
        = [out] ∧
      out.situacaoLista = "Planejado" ∧
      (vf = "Fat Liq (R$)" → out.fatLiqRs = value ∧ out.fatLiqKg = mdKg.getD 0) ∧
      (vf = "Fat Liq (Kg)" → out.fatLiqKg = value ∧
        out.fatLiqRs =
          (match strategy with
           | .hold2026 => base_price
           | .constantGrowth => base_price * (1 + rate) ^ (year - 2026)) * value) := by
  rcases hvf with h | h
  · subst h
    cases strategy
    · exact ⟨_, rfl, rfl, fun hc => absurd hc (by decide), fun _ => ⟨rfl, rfl⟩⟩
    · exact ⟨_, rfl, rfl, fun hc => absurd hc (by decide), fun _ => ⟨rfl, rfl⟩⟩
  · subst h
    cases strategy
    · exact ⟨_, rfl, rfl, fun _ => ⟨rfl, rfl⟩, fun hc => absurd hc (by decide)⟩
    · exact ⟨_, rfl, rfl, fun _ => ⟨rfl, rfl⟩, fun hc => absurd hc (by decide)⟩

/-- Witness for C7 at a concrete revenue-field request under constant growth:
the projected revenue 11 passes through unchanged, the volume is the 2026 base
volume 3, and the status is `"Planejado"`. -/
theorem apply_price_strategy_spec_witness :
    ∃ out, apply_price_strategy PriceStrategy.constantGrowth 1 "Fat Liq (R$)"
        [build_projection_row (some 3) (some 7) 2027 11 2 (some 5) "Fat Liq (R$)" 0]
        = [out] ∧
      out.situacaoLista = "Planejado" ∧
      (("Fat Liq (R$)" : String) = "Fat Liq (R$)" →
        out.fatLiqRs = 11 ∧ out.fatLiqKg = 3) ∧
      (("Fat Liq (R$)" : String) = "Fat Liq (Kg)" → out.fatLiqKg = 11 ∧
        out.fatLiqRs =
          (match PriceStrategy.constantGrowth with
           | .hold2026 => (2 : ℚ)
           | .constantGrowth => 2 * (1 + 1) ^ ((2027 : ℤ) - 2026)) * 11) := by
  exact apply_price_strategy_spec (some 3) (some 7) 2027 11 2 (some 5)
    "Fat Liq (R$)" 0 1 PriceStrategy.constantGrowth (Or.inr rfl)

theorem getLast?_cons' {α : Type _} (a : α) (l : List α) :
    (a :: l).getLast? = some ((l.getLast?).getD a) := by
  induction l generalizing a with
  | nil => rfl
  | cons b l ih =>
    rw [List.getLast?_cons_cons, ih b]
    rfl

/-- A row that is inactive, or in another hierarchy group, or in another year,
leaves the `(values, kg, revenue)` entries of group `k` at year `y` alone. -/
theorem lookup3_groupStep_skip (vf : String)
    (acc : List String → Option GroupPayload) (row : DataRow) (k : List String)
    (y : ℤ)
    (h : ¬ ((row.situacaoLista.getD "Ativo" = "Ativo") ∧ row.hierarchyKey = k ∧
      row.ano = y)) :
    lookup3 (groupStep vf acc row) k y = lookup3 acc k y := by
  by_cases hact : row.situacaoLista.getD "Ativo" = "Ativo"
  · by_cases hkey : row.hierarchyKey = k
    · have hyr : ¬ row.ano = y := fun hy => h ⟨hact, hkey, hy⟩
      have hyr' : ¬ y = row.ano := fun hc => hyr hc.symm
      unfold lookup3
      simp only [groupStep]
      rw [if_neg (fun hc => hc hact), hkey]
      rw [if_pos (show k = k from rfl)]
      simp only [Option.some_bind, Prod.mk.injEq]
      cases hacck : acc k with
      | none =>
        simp only [hacck, Option.getD_none, Option.none_bind]
        refine ⟨?_, ?_, ?_⟩ <;>
          · split <;> simp [emptyGroup, updateFn, hyr']
      | some g =>
        simp only [hacck, Option.getD_some, Option.some_bind]
        refine ⟨?_, ?_, ?_⟩ <;>
          · split <;> simp [updateFn, hyr']
    · unfold lookup3
      simp only [groupStep]
      rw [if_neg (fun hc => hc hact)]
      rw [if_neg (fun hc : k = row.hierarchyKey => hkey hc.symm)]
  · unfold lookup3
    simp only [groupStep]
    rw [if_pos hact]

/-- An Active row of group `k` at year `y` overwrites the `(values, kg,
revenue)` entries of that group-year with its own measures. -/
theorem lookup3_groupStep_match (vf : String)
    (acc : List String → Option GroupPayload) (row : DataRow) (k : List String)
    (y : ℤ) (hact : row.situacaoLista.getD "Ativo" = "Ativo")
    (hkey : row.hierarchyKey = k) (hyr : row.ano = y) :
    lookup3 (groupStep vf acc row) k y =
      (some (rowValue vf row), some row.fatLiqKg, some row.fatLiqRs) := by
  unfold lookup3
  simp only [groupStep]
  rw [if_neg (fun hc => hc hact), hkey]
  rw [if_pos (show k = k from rfl)]
  simp only [Option.some_bind, Prod.mk.injEq]
  refine ⟨?_, ?_, ?_⟩ <;>
    · split <;> simp [updateFn, hyr.symm]

theorem group_by_foldl_last (vf : String) (k : List String) (y : ℤ) :
    ∀ (ds : List DataRow) (acc : List String → Option GroupPayload),
      lookup3 (ds.foldl (groupStep vf) acc) k y =
        (match (ds.filter (fun row => (row.situacaoLista.getD "Ativo" = "Ativo") ∧
            row.hierarchyKey = k ∧ row.ano = y)).getLast? with
         | some r => (some (rowValue vf r), some r.fatLiqKg, some r.fatLiqRs)
         | none => lookup3 acc k y) := by
  intro ds
  induction ds with
  | nil => intro acc; rfl
  | cons r ds ih =>
    intro acc
    rw [List.foldl_cons, List.filter_cons]
    by_cases hp : (r.situacaoLista.getD "Ativo" = "Ativo") ∧ r.hierarchyKey = k ∧
        r.ano = y
    · rw [if_pos (by simpa using hp)]
      rw [ih (groupStep vf acc r), getLast?_cons']
      cases hl : (ds.filter (fun row => (row.situacaoLista.getD "Ativo" = "Ativo") ∧
          row.hierarchyKey = k ∧ row.ano = y)).getLast? with
      | some r' => rfl
      | none =>
        simp only [Option.getD_none]
        exact lookup3_groupStep_match vf acc r k y hp.1 hp.2.1 hp.2.2
    · rw [if_neg (by simpa using hp)]
      rw [ih (groupStep vf acc r)]
      cases hl : (ds.filter (fun row => (row.situacaoLista.getD "Ativo" = "Ativo") ∧
          row.hierarchyKey = k ∧ row.ano = y)).getLast? with
      | some r' => rfl
      | none => exact lookup3_groupStep_skip vf acc r k y hp

/-- C9: in `_group_by_hierarchy`, when several Active rows share a hierarchy
key and a year, the group's per-year `values`/`kg`/`revenue` entries equal
those of the LAST such row in dataset order (assignment, not summation). -/
theorem group_by_hierarchy_last_wins (vf : String) (dataset : List DataRow)
    (k : List String) (y : ℤ) (r : DataRow)
    (hlast : (dataset.filter (fun row => (row.situacaoLista.getD "Ativo" = "Ativo") ∧
        row.hierarchyKey = k ∧ row.ano = y)).getLast? = some r) :
    ∃ g, group_by_hierarchy vf dataset k = some g ∧
      g.values y = some (rowValue vf r) ∧ g.kg y = some r.fatLiqKg ∧
      g.revenue y = some r.fatLiqRs := by
  have h := group_by_foldl_last vf k y dataset (fun _ => none)
  rw [hlast] at h
  have h' : lookup3 (group_by_hierarchy vf dataset) k y =
      (some (rowValue vf r), some r.fatLiqKg, some r.fatLiqRs) := h
  unfold lookup3 at h'
  cases hg : group_by_hierarchy vf dataset k with
  | none =>
    rw [hg] at h'
    simp only [Option.none_bind, Prod.mk.injEq] at h'
    exact absurd h'.1 (by simp)
  | some g =>
    rw [hg] at h'
    simp only [Option.some_bind, Prod.mk.injEq] at h'
    exact ⟨g, rfl, h'.1, h'.2.1, h'.2.2⟩

/-- Witness for C9 at a concrete two-row dataset sharing key and year 2026:
the group's figures are those of the second (last) row. -/
theorem group_by_hierarchy_last_wins_witness :
    ∃ g, group_by_hierarchy "Fat Liq (Kg)" [sampleRowX, sampleRowY]
        ["D", "SP", "T", "F", "FP", "M", "C1"] = some g ∧
      g.values 2026 = some 9 ∧ g.kg 2026 = some 9 ∧ g.revenue 2026 = some 18 := by
  exact group_by_hierarchy_last_wins "Fat Liq (Kg)" [sampleRowX, sampleRowY]
    ["D", "SP", "T", "F", "FP", "M", "C1"] 2026 sampleRowY (by decide)

/-- C10: constructing a forecast request with `price_growth_rate < -0.5` is
rejected by validation (some error is raised before any forecasting), so a
request that passes validation always satisfies `price_growth_rate ≥ -0.5`. -/
theorem validate_forecast_request_rate_bound (datasetKeys : List (List String))
    (rate : ℚ) :
    (rate < -(1/2) → ∃ msg, validate_forecast_request datasetKeys rate = some msg) ∧
    (validate_forecast_request datasetKeys rate = none → -(1/2) ≤ rate) := by
  constructor
  · intro hrate
    cases datasetKeys with
    | nil => exact ⟨_, rfl⟩
    | cons keys rest =>
      by_cases hm : REQUIRED_COLUMNS.filter (fun c => ¬ c ∈ keys) = []
      · refine ⟨"Price growth rate cannot be lower than -50%.", ?_⟩
        simp only [validate_forecast_request]
        rw [if_neg (fun hc => hc hm), if_pos hrate]
      · refine ⟨"Dataset is missing required columns: " ++
          String.intercalate ", " (REQUIRED_COLUMNS.filter (fun c => ¬ c ∈ keys)), ?_⟩
        simp only [validate_forecast_request]
        rw [if_pos hm]
  · intro hnone
    cases datasetKeys with
    | nil => exact absurd hnone (by simp [validate_forecast_request])
    | cons keys rest =>
      simp only [validate_forecast_request] at hnone
      by_cases hm : REQUIRED_COLUMNS.filter (fun c => ¬ c ∈ keys) = []
      · rw [if_neg (fun hc => hc hm)] at hnone
        by_cases hrate : rate < -(1/2)
        · rw [if_pos hrate] at hnone
          exact absurd hnone (by simp)
        · exact not_lt.mp hrate
      · rw [if_pos hm] at hnone
        exact absurd hnone (by simp)

/-- Witness for C10 at concrete inputs: rate −0.6 is rejected with an error,
and from a validated rate 0 the bound −0.5 ≤ 0 follows. -/
theorem validate_forecast_request_rate_bound_witness :
    (∃ msg, validate_forecast_request [REQUIRED_COLUMNS] (-(3/5)) = some msg) ∧
      -(1/2) ≤ (0 : ℚ) := by
  constructor
  · exact (validate_forecast_request_rate_bound [REQUIRED_COLUMNS] (-(3/5))).1
      (by norm_num)
  · exact (validate_forecast_request_rate_bound [REQUIRED_COLUMNS] 0).2
      (by simp [validate_forecast_request, REQUIRED_COLUMNS])

end ForecastEngine
